import Mathlib

/-!
Shallow embedding of `aa_simulation/envs/circle_env.py` (class `CircleEnv`),
an RL environment in which an RC car tracks a circular trajectory.

Numeric values are modelled as real numbers.  Python's float modulo `a % m`
(sign of the divisor) is modelled as `a - m * ⌊a / m⌋`; `np.arctan2(y, x)`
is modelled as `Complex.arg ⟨x, y⟩`, which matches the usual atan2 case
analysis exactly; `np.inf` diagnostics are modelled with `EReal`.
The external collaborators supplied by the `VehicleEnv` base class
(`_model.state_transition`, `_check_collision`, `_dt`, `target_velocity`,
`_state`, `_action`) become fields of the `CircleEnv` structure.
-/

noncomputable section

open Real

/-- Absolute vehicle state `[x, y, yaw, x_dot, y_dot, yaw_dot]`. -/
@[ext]
structure State6 where
  x : ℝ
  y : ℝ
  yaw : ℝ
  xDot : ℝ
  yDot : ℝ
  yawDot : ℝ

/-- Relative observation `[dx, theta, ddx, dtheta]` returned by
`_state_to_relative`. -/
@[ext]
structure RelObs where
  dx : ℝ
  theta : ℝ
  ddx : ℝ
  dtheta : ℝ

/-- Python float modulo `a % m` (result has the sign of the divisor). -/
def pymod (a m : ℝ) : ℝ := a - m * (Int.floor (a / m) : ℝ)

/-- numpy `arctan2 y x`: the angle of the point `(x, y)`, in `(-π, π]`.
`Complex.arg` implements exactly the atan2 case split. -/
def atan2 (y x : ℝ) : ℝ := Complex.arg ⟨x, y⟩

/-- `CircleEnv._normalize_angle`: `angle % (2π)`, then subtract `2π`
if the result exceeds `π`. -/
def normalizeAngle (angle : ℝ) : ℝ :=
  let a := pymod angle (2 * π)
  if a > π then a - 2 * π else a

/-- `CircleEnv._state_to_relative`: convert state
`[x, y, yaw, x_dot, y_dot, yaw_dot]` to `[dx, theta, ddx, dtheta]`. -/
def stateToRelative (r : ℝ) (s : State6) : RelObs :=
  { dx := Real.sqrt (s.x ^ 2 + s.y ^ 2) - r
  , theta := normalizeAngle (atan2 (-s.x) s.y + π - s.yaw)
  , ddx := s.x / (s.x ^ 2 + s.y ^ 2) ^ ((0.5 : ℝ)) * s.xDot
      + s.y / (s.x ^ 2 + s.y ^ 2) ^ ((0.5 : ℝ)) * s.yDot
  , dtheta := s.x / (s.x ^ 2 + s.y ^ 2) * s.xDot
      - s.y / (s.x ^ 2 + s.y ^ 2) * s.yDot - s.yawDot }

/-- The environment: configuration, external collaborators from the
`VehicleEnv` base, and the mutable fields `_state` / `_action`.
`α` is the (opaque) action type. -/
structure CircleEnv (α : Type) where
  radius : ℝ
  target_velocity : ℝ
  dt : ℝ
  model : State6 → α → ℝ → State6
  check_collision : State6 → Bool
  state : State6
  action : Option α

/-- The structured result returned by `step` (rllab's `Step`); the
diagnostics `dist` / `vel` may be `np.inf`, hence `EReal`. -/
structure StepOut where
  observation : RelObs
  reward : ℝ
  done : Bool
  dist : EReal
  vel : EReal

/-- `CircleEnv.step`: advance via the dynamics model, check collision,
assign reward, and return the relative observation of `nextstate`. -/
def step {α : Type} (env : CircleEnv α) (action : α) : CircleEnv α × StepOut :=
  let nextstate := env.model env.state action env.dt
  let env1 := { env with action := some action }
  if env.check_collision nextstate then
    ⟨env1,
     { observation := stateToRelative env.radius nextstate
     , reward := -100
     , done := true
     , dist := ⊤
     , vel := ⊤ }⟩
  else
    let velocity := Real.sqrt (nextstate.xDot ^ 2 + nextstate.yDot ^ 2)
    let vel_diff := velocity - env.target_velocity
    let distance := env.radius - Real.sqrt (nextstate.x ^ 2 + nextstate.y ^ 2)
    let reward := -|distance| - 0.25 * vel_diff ^ 2
    ⟨{ env1 with state := nextstate },
     { observation := stateToRelative env.radius nextstate
     , reward := reward
     , done := false
     , dist := (distance : EReal)
     , vel := (vel_diff : EReal) }⟩

/-- numpy `deg2rad`. -/
def deg2rad (d : ℝ) : ℝ := d * (π / 180)

/-- `CircleEnv.get_initial_state`, with the five `np.random.random()`
draws made explicit as arguments `u1 … u5` (each drawn from `[0, 1)`). -/
def get_initial_state (radius target_velocity u1 u2 u3 u4 u5 : ℝ) : State6 :=
  let angle_margin := deg2rad 60
  let position_margin : ℝ := 0.5
  let velocity_margin := 1.5 * target_velocity
  let yaw_dot_margin : ℝ := 2
  let x := position_margin * u1 - position_margin / 2 - radius
  let yaw := angle_margin * u2 - angle_margin / 2 + deg2rad 270
  let x_dot := velocity_margin * u3 - velocity_margin / 2
  let y_dot := -velocity_margin * u4
  let yaw_dot := yaw_dot_margin * u5 - yaw_dot_margin / 2
  { x := x, y := 0, yaw := yaw, xDot := x_dot, yDot := y_dot, yawDot := yaw_dot }

/-! ### Helper lemmas about `pymod` and `normalizeAngle` -/

lemma pymod_nonneg {m : ℝ} (hm : 0 < m) (a : ℝ) : 0 ≤ pymod a m := by
  unfold pymod
  have h1 : (Int.floor (a / m) : ℝ) ≤ a / m := Int.floor_le _
  have h2 : m * (Int.floor (a / m) : ℝ) ≤ m * (a / m) :=
    mul_le_mul_of_nonneg_left h1 hm.le
  have h3 : m * (a / m) = a := by field_simp
  linarith

lemma pymod_lt {m : ℝ} (hm : 0 < m) (a : ℝ) : pymod a m < m := by
  unfold pymod
  have h1 : a / m < (Int.floor (a / m) : ℝ) + 1 := Int.lt_floor_add_one _
  have h2 : m * (a / m) < m * ((Int.floor (a / m) : ℝ) + 1) :=
    (mul_lt_mul_left hm).mpr h1
  have h3 : m * (a / m) = a := by field_simp
  nlinarith

lemma pymod_eq_self {m a : ℝ} (h0 : 0 ≤ a) (h1 : a < m) : pymod a m = a := by
  have hm : 0 < m := lt_of_le_of_lt h0 h1
  have hfloor : Int.floor (a / m) = 0 := by
    rw [Int.floor_eq_iff]
    constructor
    · push_cast
      positivity
    · have : a / m < 1 := (div_lt_one hm).mpr h1
      push_cast
      linarith
  unfold pymod
  rw [hfloor]
  simp

lemma normalizeAngle_mem_Ioc (θ : ℝ) : normalizeAngle θ ∈ Set.Ioc (-π) π := by
  have h2π : 0 < 2 * π := by positivity
  have h0 := pymod_nonneg h2π θ
  have h1 := pymod_lt h2π θ
  unfold normalizeAngle
  by_cases h : pymod θ (2 * π) > π
  · rw [if_pos h]
    constructor <;> nlinarith [pi_pos]
  · rw [if_neg h]
    push_neg at h
    constructor <;> nlinarith [pi_pos]

lemma normalizeAngle_eq_self {a : ℝ} (h : a ∈ Set.Ioc (-π) π) :
    normalizeAngle a = a := by
  obtain ⟨hlo, hhi⟩ := h
  have h2π : 0 < 2 * π := by positivity
  rcases le_or_lt 0 a with h0 | h0
  · have hmod : pymod a (2 * π) = a :=
      pymod_eq_self h0 (by nlinarith [pi_pos])
    unfold normalizeAngle
    rw [hmod, if_neg (not_lt.mpr hhi)]
  · have hfloor : Int.floor (a / (2 * π)) = -1 := by
      rw [Int.floor_eq_iff]
      constructor
      · have hle : (-1 : ℝ) * (2 * π) ≤ a := by nlinarith [pi_pos]
        have := (le_div_iff₀ h2π).mpr hle
        simpa using this
      · have : a / (2 * π) < 0 := div_neg_of_neg_of_pos h0 h2π
        push_cast
        linarith
    have hmod : pymod a (2 * π) = a + 2 * π := by
      unfold pymod
      rw [hfloor]
      push_cast
      ring
    unfold normalizeAngle
    rw [hmod, if_pos (by nlinarith [pi_pos])]
    ring

lemma normalizeAngle_two_pi_int (k : ℤ) : normalizeAngle (2 * π * k) = 0 := by
  have hmod : pymod (2 * π * k) (2 * π) = 0 := by
    unfold pymod
    have hq : (2 * π * k) / (2 * π) = (k : ℝ) := by
      field_simp
    rw [hq, Int.floor_intCast]
    ring
  unfold normalizeAngle
  rw [hmod, if_neg (not_lt.mpr pi_pos.le)]

/-! ### Claim theorems -/

/-- C1: in `step`, if the external collision check on the dynamics model's
`nextstate` reports a collision then `reward = -100`, `done = true`,
`dist = +∞` and `vel = +∞`; otherwise `done = false`.  `done` equals the
collision flag, so collision is the only termination condition. -/
theorem step_done_iff_collision {α : Type} (env : CircleEnv α) (a : α) :
    (step env a).2.done = env.check_collision (env.model env.state a env.dt)
    ∧ (if env.check_collision (env.model env.state a env.dt)
       then (step env a).2.reward = -100
            ∧ (step env a).2.dist = (⊤ : EReal)
            ∧ (step env a).2.vel = (⊤ : EReal)
       else (step env a).2.done = false) := by
  unfold step
  cases hb : env.check_collision (env.model env.state a env.dt) <;> simp [hb]

/-- C2: on a non-collision step, the returned reward is exactly
`-|radius - sqrt(x² + y²)| - 0.25 * (sqrt(x_dot² + y_dot²) - v_target)²`
for the committed post-step state, and the diagnostics are
`dist = radius - sqrt(x² + y²)` and `vel = sqrt(x_dot² + y_dot²) - v_target`. -/
theorem step_reward_eq {α : Type} (env : CircleEnv α) (a : α)
    (h : env.check_collision (env.model env.state a env.dt) = false) :
    (step env a).2.reward
      = -|env.radius - Real.sqrt ((env.model env.state a env.dt).x ^ 2
            + (env.model env.state a env.dt).y ^ 2)|
        - 0.25 * (Real.sqrt ((env.model env.state a env.dt).xDot ^ 2
            + (env.model env.state a env.dt).yDot ^ 2) - env.target_velocity) ^ 2
    ∧ (step env a).2.dist
      = ((env.radius - Real.sqrt ((env.model env.state a env.dt).x ^ 2
            + (env.model env.state a env.dt).y ^ 2) : ℝ) : EReal)
    ∧ (step env a).2.vel
      = ((Real.sqrt ((env.model env.state a env.dt).xDot ^ 2
            + (env.model env.state a env.dt).yDot ^ 2)
            - env.target_velocity : ℝ) : EReal) := by
  unfold step
  simp [h]

/-- Concrete environment used to instantiate the non-collision step
theorems: radius 1, target velocity 2, dynamics constantly `(3, 4, 0, 0, 0, 0)`,
collision check constantly false. -/
def envW2 : CircleEnv Unit :=
  { radius := 1
  , target_velocity := 2
  , dt := 1
  , model := fun _ _ _ => ⟨3, 4, 0, 0, 0, 0⟩
  , check_collision := fun _ => false
  , state := ⟨0, 0, 0, 0, 0, 0⟩
  , action := none }

/-- C2 witness: the reward/diagnostics formula instantiated at a concrete
non-colliding environment. -/
theorem step_reward_eq_witness :
    envW2.check_collision (envW2.model envW2.state () envW2.dt) = false
    ∧ ((step envW2 ()).2.reward
      = -|envW2.radius - Real.sqrt ((envW2.model envW2.state () envW2.dt).x ^ 2
            + (envW2.model envW2.state () envW2.dt).y ^ 2)|
        - 0.25 * (Real.sqrt ((envW2.model envW2.state () envW2.dt).xDot ^ 2
            + (envW2.model envW2.state () envW2.dt).yDot ^ 2)
            - envW2.target_velocity) ^ 2
    ∧ (step envW2 ()).2.dist
      = ((envW2.radius - Real.sqrt ((envW2.model envW2.state () envW2.dt).x ^ 2
            + (envW2.model envW2.state () envW2.dt).y ^ 2) : ℝ) : EReal)
    ∧ (step envW2 ()).2.vel
      = ((Real.sqrt ((envW2.model envW2.state () envW2.dt).xDot ^ 2
            + (envW2.model envW2.state () envW2.dt).yDot ^ 2)
            - envW2.target_velocity : ℝ) : EReal)) :=
  ⟨rfl, step_reward_eq envW2 () rfl⟩

/-- C3: frame condition of `step` — on collision the retained state equals
the pre-step state (it is not advanced to `nextstate`); on non-collision it
is updated to `nextstate`. -/
theorem step_state_frame {α : Type} (env : CircleEnv α) (a : α) :
    (step env a).1.state
      = if env.check_collision (env.model env.state a env.dt)
        then env.state
        else env.model env.state a env.dt := by
  unfold step
  cases hb : env.check_collision (env.model env.state a env.dt) <;> simp [hb]

/-- C6 (amended): the observation returned by `step` is always
`_state_to_relative(nextstate)`, on collision as well as on non-collision —
on collision it reflects the rejected `nextstate`, not the retained state. -/
theorem step_obs_eq {α : Type} (env : CircleEnv α) (a : α) :
    (step env a).2.observation
      = stateToRelative env.radius (env.model env.state a env.dt) := by
  unfold step
  cases hb : env.check_collision (env.model env.state a env.dt) <;> simp [hb]

/-- Concrete environment refuting C6 as stated: always-colliding check,
dynamics constantly `(3, 0, 0, 0, 0, 0)`, pre-step state `(2, 0, 0, 0, 0, 0)`. -/
def envC6 : CircleEnv Unit :=
  { radius := 1
  , target_velocity := 1
  , dt := 1
  , model := fun _ _ _ => ⟨3, 0, 0, 0, 0, 0⟩
  , check_collision := fun _ => true
  , state := ⟨2, 0, 0, 0, 0, 0⟩
  , action := none }

/-- C6 counterexample: on a colliding step the retained state is the
pre-step state, yet the returned observation is NOT the relative transform
of that retained state (it is the transform of the rejected `nextstate`). -/
theorem step_obs_collision_cex :
    (step envC6 ()).2.done = true
    ∧ (step envC6 ()).1.state = (⟨2, 0, 0, 0, 0, 0⟩ : State6)
    ∧ (step envC6 ()).2.observation
        ≠ stateToRelative envC6.radius (⟨2, 0, 0, 0, 0, 0⟩ : State6) := by
  refine ⟨rfl, rfl, fun h => ?_⟩
  have hdx := congrArg RelObs.dx h
  have h9 : Real.sqrt ((3 : ℝ) ^ 2 + 0 ^ 2) = 3 := by
    rw [show (3 : ℝ) ^ 2 + 0 ^ 2 = 3 ^ 2 by norm_num,
      Real.sqrt_sq (by norm_num : (0 : ℝ) ≤ 3)]
  have h4 : Real.sqrt ((2 : ℝ) ^ 2 + 0 ^ 2) = 2 := by
    rw [show (2 : ℝ) ^ 2 + 0 ^ 2 = 2 ^ 2 by norm_num,
      Real.sqrt_sq (by norm_num : (0 : ℝ) ≤ 2)]
  simp only [envC6, step, stateToRelative] at hdx
  rw [h9, h4] at hdx
  norm_num at hdx

/-- C4: the code's own docstring promises `[-π, π)`, but `_normalize_angle`
evaluated at the failing input `θ = π` returns `π`, which is not below `π`.
(The actual range of the implementation is `(-π, π]`.) -/
theorem normalizeAngle_pi_failing :
    normalizeAngle π = π ∧ ¬ normalizeAngle π < π := by
  have hmod : pymod π (2 * π) = π :=
    pymod_eq_self pi_pos.le (by nlinarith [pi_pos])
  have heq : normalizeAngle π = π := by
    unfold normalizeAngle
    rw [hmod, if_neg (lt_irrefl π)]
  exact ⟨heq, by rw [heq]; exact lt_irrefl π⟩

/-- C9: `_normalize_angle` is idempotent. -/
theorem normalizeAngle_idem (θ : ℝ) :
    normalizeAngle (normalizeAngle θ) = normalizeAngle θ :=
  normalizeAngle_eq_self (normalizeAngle_mem_Ioc θ)

/-- C5: for a state with `(x, y) ≠ (0, 0)`, `_state_to_relative` returns
`[sqrt(x² + y²) - radius, normalize(atan2(-x, y) + π - yaw),
(x·x_dot + y·y_dot)/sqrt(x² + y²), (x·x_dot - y·y_dot)/(x² + y²) - yaw_dot]`. -/
theorem stateToRelative_formula (r : ℝ) (s : State6) (h : s.x ≠ 0 ∨ s.y ≠ 0) :
    stateToRelative r s
      = { dx := Real.sqrt (s.x ^ 2 + s.y ^ 2) - r
        , theta := normalizeAngle (atan2 (-s.x) s.y + π - s.yaw)
        , ddx := (s.x * s.xDot + s.y * s.yDot) / Real.sqrt (s.x ^ 2 + s.y ^ 2)
        , dtheta := (s.x * s.xDot - s.y * s.yDot) / (s.x ^ 2 + s.y ^ 2)
            - s.yawDot } := by
  have hs : (s.x ^ 2 + s.y ^ 2) ^ ((0.5 : ℝ)) = Real.sqrt (s.x ^ 2 + s.y ^ 2) := by
    rw [show (0.5 : ℝ) = 1 / 2 by norm_num, ← Real.sqrt_eq_rpow]
  unfold stateToRelative
  rw [hs]
  ext <;> simp <;> ring

/-- C5 witness: the formula instantiated at the concrete state
`(3, 4, 0, 1, 1, 0)` with radius 2. -/
theorem stateToRelative_formula_witness :
    ((3 : ℝ) ≠ 0 ∨ (4 : ℝ) ≠ 0)
    ∧ stateToRelative 2 (⟨3, 4, 0, 1, 1, 0⟩ : State6)
      = { dx := Real.sqrt ((3 : ℝ) ^ 2 + 4 ^ 2) - 2
        , theta := normalizeAngle (atan2 (-(3 : ℝ)) 4 + π - 0)
        , ddx := ((3 : ℝ) * 1 + 4 * 1) / Real.sqrt ((3 : ℝ) ^ 2 + 4 ^ 2)
        , dtheta := ((3 : ℝ) * 1 - 4 * 1) / ((3 : ℝ) ^ 2 + 4 ^ 2) - 0 } :=
  ⟨Or.inl (by norm_num),
   stateToRelative_formula 2 ⟨3, 4, 0, 1, 1, 0⟩ (Or.inl (by norm_num))⟩

/-- C7: for RNG draws in `[0, 1)` and nonnegative target velocity, the
sampled initial state satisfies `x ∈ [-radius - 0.25, -radius + 0.25]`,
`yaw ∈ [270° - 30°, 270° + 30°]` in radians, `|x_dot| ≤ 0.75 · v_target`,
`|y_dot| ≤ 1.5 · v_target`, and `yaw_dot ∈ [-1, 1]`. -/
theorem get_initial_state_bounds (radius vt u1 u2 u3 u4 u5 : ℝ)
    (hvt : 0 ≤ vt)
    (hu1 : 0 ≤ u1) (hu1b : u1 < 1)
    (hu2 : 0 ≤ u2) (hu2b : u2 < 1)
    (hu3 : 0 ≤ u3) (hu3b : u3 < 1)
    (hu4 : 0 ≤ u4) (hu4b : u4 < 1)
    (hu5 : 0 ≤ u5) (hu5b : u5 < 1) :
    (-radius - 0.25 ≤ (get_initial_state radius vt u1 u2 u3 u4 u5).x
      ∧ (get_initial_state radius vt u1 u2 u3 u4 u5).x ≤ -radius + 0.25)
    ∧ (deg2rad 270 - deg2rad 30 ≤ (get_initial_state radius vt u1 u2 u3 u4 u5).yaw
      ∧ (get_initial_state radius vt u1 u2 u3 u4 u5).yaw ≤ deg2rad 270 + deg2rad 30)
    ∧ |(get_initial_state radius vt u1 u2 u3 u4 u5).xDot| ≤ 0.75 * vt
    ∧ |(get_initial_state radius vt u1 u2 u3 u4 u5).yDot| ≤ 1.5 * vt
    ∧ (-1 ≤ (get_initial_state radius vt u1 u2 u3 u4 u5).yawDot
      ∧ (get_initial_state radius vt u1 u2 u3 u4 u5).yawDot ≤ 1) := by
  unfold get_initial_state deg2rad
  simp only
  refine ⟨⟨by norm_num; linarith, by norm_num; linarith⟩, ⟨?_, ?_⟩, ?_, ?_,
    ⟨by linarith, by linarith⟩⟩
  · nlinarith [pi_pos, mul_nonneg pi_pos.le hu2]
  · nlinarith [pi_pos, mul_nonneg pi_pos.le (sub_nonneg.mpr hu2b.le)]
  · rw [abs_le]
    constructor
    · nlinarith [mul_nonneg hvt hu3]
    · nlinarith [mul_nonneg hvt (sub_nonneg.mpr hu3b.le)]
  · rw [abs_le]
    constructor
    · nlinarith [mul_nonneg hvt (sub_nonneg.mpr hu4b.le)]
    · nlinarith [mul_nonneg hvt hu4]

/-- C7 witness: the bounds instantiated at radius 1, target velocity 2,
all five RNG draws 0. -/
theorem get_initial_state_bounds_witness :
    ((0 : ℝ) ≤ 2 ∧ (0 : ℝ) ≤ 0 ∧ (0 : ℝ) < 1)
    ∧ ((-(1 : ℝ) - 0.25 ≤ (get_initial_state 1 2 0 0 0 0 0).x
      ∧ (get_initial_state 1 2 0 0 0 0 0).x ≤ -(1 : ℝ) + 0.25)
    ∧ (deg2rad 270 - deg2rad 30 ≤ (get_initial_state 1 2 0 0 0 0 0).yaw
      ∧ (get_initial_state 1 2 0 0 0 0 0).yaw ≤ deg2rad 270 + deg2rad 30)
    ∧ |(get_initial_state 1 2 0 0 0 0 0).xDot| ≤ 0.75 * 2
    ∧ |(get_initial_state 1 2 0 0 0 0 0).yDot| ≤ 1.5 * 2
    ∧ (-1 ≤ (get_initial_state 1 2 0 0 0 0 0).yawDot
      ∧ (get_initial_state 1 2 0 0 0 0 0).yawDot ≤ 1)) :=
  ⟨⟨by norm_num, by norm_num, by norm_num⟩,
   get_initial_state_bounds 1 2 0 0 0 0 0 (by norm_num) (by norm_num)
     (by norm_num) (by norm_num) (by norm_num) (by norm_num) (by norm_num)
     (by norm_num) (by norm_num) (by norm_num) (by norm_num)⟩

/-- C10: the initial state's `y` position is exactly 0 for every sequence
of draws, and (for draws in `[0, 1)` and positive target velocity) the
lateral velocity `y_dot` lies in `(-1.5 · v_target, 0]`. -/
theorem get_initial_state_y_props (radius vt u1 u2 u3 u4 u5 : ℝ)
    (hvt : 0 < vt) (hu4 : 0 ≤ u4) (hu4b : u4 < 1) :
    (get_initial_state radius vt u1 u2 u3 u4 u5).y = 0
    ∧ -(1.5 * vt) < (get_initial_state radius vt u1 u2 u3 u4 u5).yDot
    ∧ (get_initial_state radius vt u1 u2 u3 u4 u5).yDot ≤ 0 := by
  unfold get_initial_state
  refine ⟨rfl, ?_, ?_⟩
  · simp only
    nlinarith [mul_pos hvt (sub_pos.mpr hu4b)]
  · simp only
    nlinarith [mul_nonneg hvt.le hu4]

/-- C8: for a state exactly on the target circle whose heading equals the
circle's tangent direction `atan2(-x, y) + π` (up to a multiple of `2π`) and
whose velocity points along that heading with magnitude `v_target ≥ 0`,
`_state_to_relative` yields `dx = 0`, `theta = 0`, `ddx = 0`, and a
non-colliding `step` landing on that state yields reward `0`. -/
theorem circle_tangent_zero (r vt x y w : ℝ) (k : ℤ) (yaw : ℝ)
    (hr : 0 < r) (hcirc : Real.sqrt (x ^ 2 + y ^ 2) = r) (hvt : 0 ≤ vt)
    (hyaw : yaw = atan2 (-x) y + π + 2 * π * k) :
    (stateToRelative r ⟨x, y, yaw, vt * Real.cos yaw, vt * Real.sin yaw, w⟩).dx = 0
    ∧ (stateToRelative r ⟨x, y, yaw, vt * Real.cos yaw, vt * Real.sin yaw, w⟩).theta = 0
    ∧ (stateToRelative r ⟨x, y, yaw, vt * Real.cos yaw, vt * Real.sin yaw, w⟩).ddx = 0
    ∧ (step { radius := r
            , target_velocity := vt
            , dt := 1
            , model := fun _ _ _ => ⟨x, y, yaw, vt * Real.cos yaw, vt * Real.sin yaw, w⟩
            , check_collision := fun _ => false
            , state := ⟨x, y, yaw, vt * Real.cos yaw, vt * Real.sin yaw, w⟩
            , action := none } ()).2.reward = 0 := by
  have hxy2 : x ^ 2 + y ^ 2 = r ^ 2 := by
    have h0 : (0 : ℝ) ≤ x ^ 2 + y ^ 2 := by positivity
    have hsq := Real.sq_sqrt h0
    rw [hcirc] at hsq
    linarith
  have hz : (⟨y, -x⟩ : ℂ) ≠ 0 := by
    intro hzz
    rw [Complex.ext_iff] at hzz
    simp only [Complex.zero_re, Complex.zero_im] at hzz
    obtain ⟨hy0, hx0⟩ := hzz
    have hx0 : x = 0 := by linarith [neg_eq_zero.mp hx0]
    nlinarith
  have habs : Complex.abs ⟨y, -x⟩ = r := by
    rw [Complex.abs_apply, Complex.normSq_mk,
      show y * y + -x * -x = x ^ 2 + y ^ 2 by ring, hcirc]
  have hyaw2 : yaw = (Complex.arg ⟨y, -x⟩ + π) + (k : ℝ) * (2 * π) := by
    rw [hyaw, atan2]
    ring
  have hcos : Real.cos yaw = -(y / r) := by
    rw [hyaw2, Real.cos_add_int_mul_two_pi, Real.cos_add_pi, Complex.cos_arg hz,
      habs]
  have hsin : Real.sin yaw = x / r := by
    rw [hyaw2, Real.sin_add_int_mul_two_pi, Real.sin_add_pi, Complex.sin_arg,
      habs]
    show -((-x) / r) = x / r
    ring
  have hspeed : Real.sqrt ((vt * Real.cos yaw) ^ 2 + (vt * Real.sin yaw) ^ 2) = vt := by
    rw [mul_pow, mul_pow, ← mul_add, Real.cos_sq_add_sin_sq, mul_one,
      Real.sqrt_sq hvt]
  have h05 : (x ^ 2 + y ^ 2) ^ ((0.5 : ℝ)) = Real.sqrt (x ^ 2 + y ^ 2) := by
    rw [show (0.5 : ℝ) = 1 / 2 by norm_num, ← Real.sqrt_eq_rpow]
  refine ⟨?_, ?_, ?_, ?_⟩
  · simp only [stateToRelative, hcirc]
    ring
  · simp only [stateToRelative]
    rw [hyaw, atan2,
      show Complex.arg ⟨y, -x⟩ + π - (Complex.arg ⟨y, -x⟩ + π + 2 * π * (k : ℝ))
        = 2 * π * ((-k : ℤ) : ℝ) by push_cast; ring]
    exact normalizeAngle_two_pi_int (-k)
  · simp only [stateToRelative, h05, hcirc, hcos, hsin]
    ring
  · simp only [step, Bool.false_eq_true, if_false, hspeed, hcirc]
    rw [sub_self, sub_self, abs_zero]
    norm_num

/-- C8 witness: the on-circle tangential conditions instantiated at the
point `(0, -1)` on the unit circle, target velocity 2, `k = 0`. -/
theorem circle_tangent_zero_witness :
    ((0 : ℝ) < 1
    ∧ Real.sqrt ((0 : ℝ) ^ 2 + (-1 : ℝ) ^ 2) = 1
    ∧ (0 : ℝ) ≤ 2)
    ∧ ((stateToRelative 1 ⟨0, -1, atan2 (-(0 : ℝ)) (-1) + π + 2 * π * ((0 : ℤ) : ℝ),
          2 * Real.cos (atan2 (-(0 : ℝ)) (-1) + π + 2 * π * ((0 : ℤ) : ℝ)),
          2 * Real.sin (atan2 (-(0 : ℝ)) (-1) + π + 2 * π * ((0 : ℤ) : ℝ)), 0⟩).dx = 0
    ∧ (stateToRelative 1 ⟨0, -1, atan2 (-(0 : ℝ)) (-1) + π + 2 * π * ((0 : ℤ) : ℝ),
          2 * Real.cos (atan2 (-(0 : ℝ)) (-1) + π + 2 * π * ((0 : ℤ) : ℝ)),
          2 * Real.sin (atan2 (-(0 : ℝ)) (-1) + π + 2 * π * ((0 : ℤ) : ℝ)), 0⟩).theta = 0
    ∧ (stateToRelative 1 ⟨0, -1, atan2 (-(0 : ℝ)) (-1) + π + 2 * π * ((0 : ℤ) : ℝ),
          2 * Real.cos (atan2 (-(0 : ℝ)) (-1) + π + 2 * π * ((0 : ℤ) : ℝ)),
          2 * Real.sin (atan2 (-(0 : ℝ)) (-1) + π + 2 * π * ((0 : ℤ) : ℝ)), 0⟩).ddx = 0
    ∧ (step { radius := (1 : ℝ)
            , target_velocity := 2
            , dt := 1
            , model := fun _ _ _ =>
                ⟨0, -1, atan2 (-(0 : ℝ)) (-1) + π + 2 * π * ((0 : ℤ) : ℝ),
                 2 * Real.cos (atan2 (-(0 : ℝ)) (-1) + π + 2 * π * ((0 : ℤ) : ℝ)),
                 2 * Real.sin (atan2 (-(0 : ℝ)) (-1) + π + 2 * π * ((0 : ℤ) : ℝ)), 0⟩
            , check_collision := fun _ => false
            , state := ⟨0, -1, atan2 (-(0 : ℝ)) (-1) + π + 2 * π * ((0 : ℤ) : ℝ),
                 2 * Real.cos (atan2 (-(0 : ℝ)) (-1) + π + 2 * π * ((0 : ℤ) : ℝ)),
                 2 * Real.sin (atan2 (-(0 : ℝ)) (-1) + π + 2 * π * ((0 : ℤ) : ℝ)), 0⟩
            , action := none } ()).2.reward = 0) :=
  ⟨⟨by norm_num,
    by rw [show (0 : ℝ) ^ 2 + (-1 : ℝ) ^ 2 = 1 by norm_num, Real.sqrt_one],
    by norm_num⟩,
   circle_tangent_zero 1 2 0 (-1) 0 0 _ (by norm_num)
     (by rw [show (0 : ℝ) ^ 2 + (-1 : ℝ) ^ 2 = 1 by norm_num, Real.sqrt_one])
     (by norm_num) rfl⟩

/-- C10 witness: instantiated at radius 1, target velocity 2, all draws 0. -/
theorem get_initial_state_y_props_witness :
    ((0 : ℝ) < 2 ∧ (0 : ℝ) ≤ 0 ∧ (0 : ℝ) < 1)
    ∧ ((get_initial_state 1 2 0 0 0 0 0).y = 0
    ∧ -(1.5 * 2 : ℝ) < (get_initial_state 1 2 0 0 0 0 0).yDot
    ∧ (get_initial_state 1 2 0 0 0 0 0).yDot ≤ 0) :=
  ⟨⟨by norm_num, by norm_num, by norm_num⟩,
   get_initial_state_y_props 1 2 0 0 0 0 0 (by norm_num) (by norm_num)
     (by norm_num)⟩

end
